import Mathlib

/-!
Verification of the marketflow signal/decision engine
(`src/marketflow/strategy.py`, `src/marketflow/market_data.py`,
`src/marketflow/database.py`, `src/marketflow/monitoring.py`).

Prices, ratios, RSI values and fear scores are modelled as rationals;
the Python `Optional` values become `Option`; exceptions become `Except`.
Network- and database-fetch steps (price history, moving averages, VIX)
are external collaborators and enter the model as plain input values,
exactly as the engine receives them.
-/

namespace Marketflow

/-- The `Position` enum of `strategy.py`. -/
inductive Position
  | CASH
  | QQQ
  | SPY
  | SH
  | PSQ
  | AGG
  | LQD
  | TLT
  | GLD
deriving DecidableEq

/-- One notification emitted through `Strategy._send_signal_notification`
(or the crossover notifications in `evaluate_position`), identified by
the call site in `strategy.py`. -/
inductive Signal
  | crossUpNote      -- "N上穿V" (evaluate_position, line 145)
  | crossDownNote    -- "N下穿V" (evaluate_position, line 147)
  | sellQQQ          -- "卖出QQQ信号" (_check_exit_conditions, line 86)
  | sellSPYCross     -- "卖出SPY信号", N crossed up (line 92)
  | sellSPYMa        -- "卖出SPY信号", SPY below 40-week MA (line 95)
  | buyQQQ           -- "买入QQQ信号" (_check_entry_conditions, line 114)
  | buySPY           -- "买入SPY信号" (line 119)
  | sellQQQEnh       -- "卖出QQQ信号" (evaluate_position_enhanced, line 220)
  | sellSPYEnh       -- "卖出SPY信号" (line 226)
  | buyQQQEnh        -- "买入QQQ信号" (line 233)
  | buySPYEnh        -- "买入SPY信号" (line 236)
deriving DecidableEq

/-- The mutable fields of a `Strategy` object that the evaluation paths
read or write: `current_position`, `last_n_above_v` and the
`entry_prices` dict (modelled as an association list). -/
structure StrategyState where
  current_position : Option Position
  last_n_above_v : Option Bool
  entry_prices : List (String × ℚ)
deriving DecidableEq

/-- `Strategy.__init__`: `current_position = None`, `last_n_above_v = None`,
`entry_prices = {}`. -/
def strategy_init : StrategyState :=
  { current_position := none, last_n_above_v := none, entry_prices := [] }

/-- `del d[k]` guarded by `if k in d`: drop the key if present. -/
def erase_key (k : String) (l : List (String × ℚ)) : List (String × ℚ) :=
  l.filter (fun kv => kv.1 ≠ k)

/-- `d[k] = v` on the `entry_prices` dict (`Strategy.update_entry_price`). -/
def set_key (k : String) (v : ℚ) (l : List (String × ℚ)) : List (String × ℚ) :=
  (k, v) :: erase_key k l

/-- `Strategy._detect_crossover` (strategy.py lines 55-74): returns
`(crossover_up, crossover_down, new last_n_above_v)`. -/
def detect_crossover (last : Option Bool) (current_n v : ℚ) :
    Bool × Bool × Option Bool :=
  let current_above := decide (current_n > v)
  match last with
  | none => (false, false, some current_above)
  | some l =>
      if !l && current_above then (true, false, some current_above)
      else if l && !current_above then (false, true, some current_above)
      else (false, false, some current_above)

/-- `Strategy._check_exit_conditions` (lines 76-98): position to exit to
(`none` = no exit) together with the notification sent. -/
def check_exit_conditions (cur : Option Position)
    (crossover_up crossover_down spy_ma_condition : Bool) :
    Option Position × List Signal :=
  if cur = some Position.QQQ ∧ crossover_down = true then
    (some Position.CASH, [Signal.sellQQQ])
  else if cur = some Position.SPY then
    if crossover_up = true then (some Position.CASH, [Signal.sellSPYCross])
    else if spy_ma_condition = false then (some Position.CASH, [Signal.sellSPYMa])
    else (none, [])
  else (none, [])

/-- `Strategy._check_entry_conditions` (lines 100-122). -/
def check_entry_conditions (cur : Option Position)
    (crossover_up : Bool) (current_n v : ℚ) (spy_ma_condition : Bool) :
    Option Position × List Signal :=
  if cur ≠ some Position.CASH then (none, [])
  else if crossover_up = true then (some Position.QQQ, [Signal.buyQQQ])
  else if current_n ≤ v ∧ spy_ma_condition = true then
    (some Position.SPY, [Signal.buySPY])
  else (none, [])

/-- `Strategy.evaluate_position` (lines 128-161): returns the recommended
position, the strategy state after the call, and the notifications sent,
in order. -/
def evaluate_position (s : StrategyState) (current_n v : ℚ)
    (spy_ma_condition : Bool) : Position × StrategyState × List Signal :=
  let r := detect_crossover s.last_n_above_v current_n v
  let s1 : StrategyState := { s with last_n_above_v := r.2.2 }
  let crossNotes : List Signal :=
    if r.1 = true then [Signal.crossUpNote]
    else if r.2.1 = true then [Signal.crossDownNote]
    else []
  let ex := check_exit_conditions s1.current_position r.1 r.2.1 spy_ma_condition
  match ex.1 with
  | some p => (p, s1, crossNotes ++ ex.2)
  | none =>
      let en := check_entry_conditions s1.current_position r.1 current_n v
        spy_ma_condition
      match en.1 with
      | some p => (p, s1, crossNotes ++ en.2)
      | none => (s1.current_position.getD Position.CASH, s1, crossNotes)

/-- `Strategy.evaluate_position_enhanced` (lines 163-239), on well-typed
(float) confirmation inputs. -/
def evaluate_position_enhanced (s : StrategyState) (current_n v : ℚ)
    (spy_ma_condition : Bool) (qqq_rsi spy_rsi : ℚ)
    (qqq_ma_trend spy_ma_trend : String) (fear_score : ℚ) :
    Position × StrategyState × List Signal :=
  let r := detect_crossover s.last_n_above_v current_n v
  let s1 : StrategyState := { s with last_n_above_v := r.2.2 }
  let qqq_entry_confirmed :=
    r.1 && decide (qqq_rsi < 70) && (qqq_ma_trend == "rising")
      && decide (fear_score < 70)
  let spy_entry_confirmed :=
    decide (current_n ≤ v) && spy_ma_condition && decide (spy_rsi < 70)
      && (spy_ma_trend == "rising") && decide (fear_score > 30)
  let qqq_exit_confirmed :=
    r.2.1 || decide (qqq_rsi > 80) || (qqq_ma_trend == "falling")
      || decide (fear_score > 80)
  let spy_exit_confirmed :=
    (r.1 && decide (fear_score > 50)) || !spy_ma_condition
      || decide (spy_rsi > 80) || (spy_ma_trend == "falling")
      || decide (fear_score > 80)
  if s1.current_position = some Position.QQQ ∧ qqq_exit_confirmed = true then
    (Position.CASH, { s1 with entry_prices := erase_key "QQQ" s1.entry_prices },
      [Signal.sellQQQEnh])
  else if s1.current_position = some Position.SPY ∧ spy_exit_confirmed = true then
    (Position.CASH, { s1 with entry_prices := erase_key "SPY" s1.entry_prices },
      [Signal.sellSPYEnh])
  else if s1.current_position = some Position.CASH then
    if qqq_entry_confirmed = true then (Position.QQQ, s1, [Signal.buyQQQEnh])
    else if spy_entry_confirmed = true then (Position.SPY, s1, [Signal.buySPYEnh])
    else (s1.current_position.getD Position.CASH, s1, [])
  else (s1.current_position.getD Position.CASH, s1, [])

/-- `MarketData.calculate_ratio` (market_data.py lines 80-90). -/
def calculate_ratio (prices1 prices2 : List ℚ) : Except String (List ℚ) :=
  if prices1.length ≠ prices2.length then
    Except.error "Price series must have the same length"
  else if prices1 = [] ∨ prices2 = [] then
    Except.error "Price series cannot be empty"
  else if prices2.any (fun p => decide (p = 0)) then
    Except.error "Denominator prices cannot contain zero"
  else
    Except.ok (List.zipWith (fun p1 p2 => p1 / p2) prices1 prices2)

/-- `MarketData.calculate_average` (market_data.py lines 92-97). -/
def calculate_average (values : List ℚ) : Except String ℚ :=
  if values = [] then Except.error "Cannot calculate average of empty list"
  else Except.ok (values.sum / values.length)

/-- Repeated `_detect_crossover` calls over a sequence of `(N, V)` pairs,
threading the remembered `last_n_above_v` exactly as the mutable field is:
the list of `(crossover_up, crossover_down)` classifications. -/
def run_crossovers (last : Option Bool) : List (ℚ × ℚ) → List (Bool × Bool)
  | [] => []
  | p :: rest =>
      let r := detect_crossover last p.1 p.2
      (r.1, r.2.1) :: run_crossovers r.2.2 rest

/-- Python `a < b` where `a` may be `None`: raises `TypeError`. -/
def py_lt (a : Option ℚ) (b : ℚ) : Except String Bool :=
  match a with
  | none => Except.error "TypeError: comparison not supported with NoneType"
  | some x => Except.ok (decide (x < b))

/-- Python `a > b` where `a` may be `None`: raises `TypeError`. -/
def py_gt (a : Option ℚ) (b : ℚ) : Except String Bool :=
  match a with
  | none => Except.error "TypeError: comparison not supported with NoneType"
  | some x => Except.ok (decide (x > b))

/-- Python `a == s` where `a` may be `None`: `False`, never an error. -/
def py_eq_str (a : Option String) (s : String) : Bool :=
  match a with
  | none => false
  | some x => x == s

/-- Python short-circuit `and` under exception semantics: the right operand
is evaluated only when the left is `True` and raised no error. -/
def and_sc (a : Except String Bool) (b : Unit → Except String Bool) :
    Except String Bool :=
  match a with
  | Except.error e => Except.error e
  | Except.ok false => Except.ok false
  | Except.ok true => b ()

/-- Python short-circuit `or` under exception semantics. -/
def or_sc (a : Except String Bool) (b : Unit → Except String Bool) :
    Except String Bool :=
  match a with
  | Except.error e => Except.error e
  | Except.ok true => Except.ok true
  | Except.ok false => b ()

/-- `Strategy.evaluate_position_enhanced` under Python dynamic semantics,
with possibly missing (`None`) confirmation inputs: the four confirmation
flags are computed eagerly (lines 187-216) before the decision chain, with
Python short-circuiting, and a `<`/`>` comparison against `None` raises
`TypeError`; `None == 'rising'` is merely `False`. -/
def evaluate_position_enhanced_opt (s : StrategyState) (current_n v : ℚ)
    (spy_ma_condition : Bool) (qqq_rsi spy_rsi : Option ℚ)
    (qqq_ma_trend spy_ma_trend : Option String) (fear_score : Option ℚ) :
    Except String (Position × StrategyState × List Signal) := do
  let r := detect_crossover s.last_n_above_v current_n v
  let s1 : StrategyState := { s with last_n_above_v := r.2.2 }
  let qqq_entry_confirmed ← and_sc (Except.ok r.1) (fun _ =>
    and_sc (py_lt qqq_rsi 70) (fun _ =>
      and_sc (Except.ok (py_eq_str qqq_ma_trend "rising")) (fun _ =>
        py_lt fear_score 70)))
  let spy_entry_confirmed ← and_sc (Except.ok (decide (current_n ≤ v))) (fun _ =>
    and_sc (Except.ok spy_ma_condition) (fun _ =>
      and_sc (py_lt spy_rsi 70) (fun _ =>
        and_sc (Except.ok (py_eq_str spy_ma_trend "rising")) (fun _ =>
          py_gt fear_score 30))))
  let qqq_exit_confirmed ← or_sc (Except.ok r.2.1) (fun _ =>
    or_sc (py_gt qqq_rsi 80) (fun _ =>
      or_sc (Except.ok (py_eq_str qqq_ma_trend "falling")) (fun _ =>
        py_gt fear_score 80)))
  let spy_exit_confirmed ← or_sc
    (and_sc (Except.ok r.1) (fun _ => py_gt fear_score 50)) (fun _ =>
    or_sc (Except.ok (!spy_ma_condition)) (fun _ =>
      or_sc (py_gt spy_rsi 80) (fun _ =>
        or_sc (Except.ok (py_eq_str spy_ma_trend "falling")) (fun _ =>
          py_gt fear_score 80))))
  if s1.current_position = some Position.QQQ ∧ qqq_exit_confirmed = true then
    Except.ok (Position.CASH,
      { s1 with entry_prices := erase_key "QQQ" s1.entry_prices },
      [Signal.sellQQQEnh])
  else if s1.current_position = some Position.SPY ∧ spy_exit_confirmed = true then
    Except.ok (Position.CASH,
      { s1 with entry_prices := erase_key "SPY" s1.entry_prices },
      [Signal.sellSPYEnh])
  else if s1.current_position = some Position.CASH then
    if qqq_entry_confirmed = true then
      Except.ok (Position.QQQ, s1, [Signal.buyQQQEnh])
    else if spy_entry_confirmed = true then
      Except.ok (Position.SPY, s1, [Signal.buySPYEnh])
    else Except.ok (s1.current_position.getD Position.CASH, s1, [])
  else Except.ok (s1.current_position.getD Position.CASH, s1, [])

/-- The singleton `signal_state` row of `database.py` (lines 39-47),
restricted to the persisted decision state: the remembered
`last_n_above_v` flag and the last active long signal. -/
structure SignalRow where
  last_n_above_v : Bool
  last_long_signal : Option String
deriving DecidableEq

/-- The seed row inserted once by `DatabaseManager.init_db` (lines 61-64):
`(1, 0, datetime('now'), NULL, NULL)`. -/
def init_signal_row : SignalRow :=
  { last_n_above_v := false, last_long_signal := none }

/-- `process_market_cycle` (monitoring.py lines 156-241), restricted to the
decision-relevant state. The network/database fetch steps (current ratio,
SPY MA condition, RSI, trends, fear score, current prices) are external
collaborators and enter as input values. The cycle calls
`evaluate_position_enhanced`, stores VIX data (the `vix_history` table,
disjoint from `signal_state`), updates trailing entry prices when the
recommended position equals the held one (`strategy_position ==
strategy.current_position`, which in Python is false whenever
`current_position` is `None`), and checks stop losses (read-only). No
statement writes the `signal_state` row, so it is threaded through
unchanged. -/
def process_market_cycle (strat : StrategyState) (row : SignalRow)
    (n_value v_value : ℚ) (spy_ma_condition : Bool) (qqq_rsi spy_rsi : ℚ)
    (qqq_ma_trend spy_ma_trend : String) (fear_score : ℚ)
    (qqq_price spy_price : ℚ) : Position × StrategyState × SignalRow :=
  let o := evaluate_position_enhanced strat n_value v_value spy_ma_condition
    qqq_rsi spy_rsi qqq_ma_trend spy_ma_trend fear_score
  let strategy_position := o.1
  let strat1 := o.2.1
  let trailing := set_key "SPY" spy_price (set_key "QQQ" qqq_price strat1.entry_prices)
  let strat2 :=
    if strat1.current_position = some strategy_position then
      { strat1 with entry_prices := trailing }
    else strat1
  (strategy_position, strat2, row)

/-- A single evaluation either keeps the (effective) position or takes one
of the four permitted edges CASH→QQQ, CASH→SPY, QQQ→CASH, SPY→CASH. -/
def allowed_step (cur : Option Position) (p : Position) : Prop :=
  p = cur.getD Position.CASH ∨
  (cur = some Position.CASH ∧ (p = Position.QQQ ∨ p = Position.SPY)) ∨
  ((cur = some Position.QQQ ∨ cur = some Position.SPY) ∧ p = Position.CASH)

/-! ## Theorems -/

/-- **C3**: crossover classification: with `last_above` unset the result is
always NONE (no up, no down); otherwise UP iff previously below and now
`current_n > v`, DOWN iff previously above and now `current_n ≤ v`; the
remembered flag is always overwritten with `current_n > v`. -/
theorem C3_detect_crossover_spec (last : Option Bool) (n v : ℚ) :
    (last = none → detect_crossover last n v = (false, false, some (decide (n > v)))) ∧
    ((detect_crossover last n v).1 = true ↔ last = some false ∧ n > v) ∧
    ((detect_crossover last n v).2.1 = true ↔ last = some true ∧ n ≤ v) ∧
    (detect_crossover last n v).2.2 = some (decide (n > v)) := by
  rcases last with _ | l
  · by_cases h : n > v <;> simp [detect_crossover, h]
  · cases l <;> by_cases h : n > v <;>
      simp [detect_crossover, h, le_of_not_lt, not_le_of_lt]

theorem C3_witness :
    detect_crossover none 3 2 = (false, false, some true) :=
  (C3_detect_crossover_spec none 3 2).1 rfl

/-- `_detect_crossover` only inspects the boolean `current_n > v`. -/
lemma detect_crossover_congr (last : Option Bool) {n v m w : ℚ}
    (h : decide (n > v) = decide (m > w)) :
    detect_crossover last n v = detect_crossover last m w := by
  unfold detect_crossover
  rw [h]

/-- **C8**: two input sequences whose `(N > V)` boolean sequences agree
produce, from the same remembered state, identical crossover
classification sequences: the detector never depends on magnitudes. -/
theorem C8_crossover_noninterference (last : Option Bool)
    (xs ys : List (ℚ × ℚ))
    (h : xs.map (fun p => decide (p.1 > p.2)) = ys.map (fun p => decide (p.1 > p.2))) :
    run_crossovers last xs = run_crossovers last ys := by
  induction xs generalizing ys last with
  | nil =>
    cases ys with
    | nil => rfl
    | cons b bs => simp at h
  | cons a as ih =>
    cases ys with
    | nil => simp at h
    | cons b bs =>
      simp only [List.map_cons, List.cons.injEq] at h
      have hd := detect_crossover_congr last h.1
      simp only [run_crossovers, hd]
      exact congrArg _ (ih _ _ h.2)

theorem C8_witness :
    run_crossovers (some false) [((3 : ℚ), 1)] = run_crossovers (some false) [((100 : ℚ), 1)] :=
  C8_crossover_noninterference (some false) _ _ (by decide)

/-- **C9** counterexample: `Strategy.__init__` sets `current_position` to
`None`, not CASH, and on an input where an engine whose current position
really is CASH enters SPY (`N ≤ V` and the SPY MA condition holds), the
freshly initialized engine produces no entry and stays CASH. -/
theorem C9_counterexample :
    strategy_init.current_position ≠ some Position.CASH ∧
    (evaluate_position ⟨some Position.CASH, strategy_init.last_n_above_v, []⟩ 1 2 true).1
      = Position.SPY ∧
    (evaluate_position strategy_init 1 2 true).1 = Position.CASH ∧
    (evaluate_position strategy_init 1 2 true).2.2 = [] := by
  decide

/-- **C9** amended: `current_position` is initialized to `None`; with a
`None` current position both evaluation paths always report CASH, but
entries require the current position to equal CASH exactly, so no entry
is possible from the initialized default state. -/
theorem C9_amended (last : Option Bool) (ep : List (String × ℚ)) (n v : ℚ)
    (ma : Bool) (qr sr : ℚ) (qt st : String) (fs : ℚ) :
    strategy_init.current_position = none ∧
    (evaluate_position ⟨none, last, ep⟩ n v ma).1 = Position.CASH ∧
    (evaluate_position_enhanced ⟨none, last, ep⟩ n v ma qr sr qt st fs).1 = Position.CASH := by
  refine ⟨rfl, ?_, ?_⟩
  · simp [evaluate_position, check_exit_conditions, check_entry_conditions]
  · simp [evaluate_position_enhanced]

/-- **C1**: for every current position and every input, one evaluation
cycle (`evaluate_position` or `evaluate_position_enhanced`) yields a
transition in {CASH→QQQ, CASH→SPY, QQQ→CASH, SPY→CASH} or leaves the
position unchanged; a direct QQQ→SPY or SPY→QQQ move never occurs. -/
theorem C1_transition_restriction (s : StrategyState) (n v : ℚ) (ma : Bool)
    (qr sr : ℚ) (qt st : String) (fs : ℚ) :
    allowed_step s.current_position (evaluate_position s n v ma).1 ∧
    allowed_step s.current_position (evaluate_position_enhanced s n v ma qr sr qt st fs).1 := by
  obtain ⟨cur, last, ep⟩ := s
  rcases hdc : detect_crossover last n v with ⟨up, down, l2⟩
  refine ⟨?_, ?_⟩
  · rcases cur with _ | c
    · simp [evaluate_position, hdc, check_exit_conditions, check_entry_conditions, allowed_step]
    · cases c <;> cases up <;> cases down <;> cases ma <;>
        simp_all [evaluate_position, hdc, check_exit_conditions, check_entry_conditions,
          allowed_step] <;>
        split_ifs <;> simp_all
  · rcases cur with _ | c
    · simp [evaluate_position_enhanced, hdc, allowed_step]
    · cases c <;>
        simp_all [evaluate_position_enhanced, hdc, allowed_step] <;>
        split_ifs <;> simp_all

/-- **C2**: exits are evaluated before entries and short-circuit the
cycle. Holding QQQ with a downward crossover returns CASH; holding SPY
with an upward crossover or with the SPY MA condition false returns CASH;
when an exit fires no entry signal is emitted; entries happen only from
CASH (upward crossover enters QQQ, otherwise `N ≤ V` with the MA
condition true enters SPY); when neither an exit nor an entry fires the
returned position equals the current position. -/
theorem C2_exit_before_entry (s : StrategyState) (n v : ℚ) (ma : Bool)
    (p : Position) (hp : s.current_position = some p) :
    ((p = Position.QQQ ∧ (detect_crossover s.last_n_above_v n v).2.1 = true) →
      (evaluate_position s n v ma).1 = Position.CASH) ∧
    ((p = Position.SPY ∧ ((detect_crossover s.last_n_above_v n v).1 = true ∨ ma = false)) →
      (evaluate_position s n v ma).1 = Position.CASH) ∧
    (((p = Position.QQQ ∧ (detect_crossover s.last_n_above_v n v).2.1 = true) ∨
      (p = Position.SPY ∧ ((detect_crossover s.last_n_above_v n v).1 = true ∨ ma = false))) →
      Signal.buyQQQ ∉ (evaluate_position s n v ma).2.2 ∧
      Signal.buySPY ∉ (evaluate_position s n v ma).2.2) ∧
    (p ≠ Position.CASH →
      (evaluate_position s n v ma).1 = Position.CASH ∨ (evaluate_position s n v ma).1 = p) ∧
    ((p = Position.CASH ∧ (detect_crossover s.last_n_above_v n v).1 = true) →
      (evaluate_position s n v ma).1 = Position.QQQ) ∧
    ((p = Position.CASH ∧ (detect_crossover s.last_n_above_v n v).1 = false ∧
        n ≤ v ∧ ma = true) →
      (evaluate_position s n v ma).1 = Position.SPY) ∧
    (¬(p = Position.QQQ ∧ (detect_crossover s.last_n_above_v n v).2.1 = true) →
     ¬(p = Position.SPY ∧ ((detect_crossover s.last_n_above_v n v).1 = true ∨ ma = false)) →
     ¬(p = Position.CASH ∧ ((detect_crossover s.last_n_above_v n v).1 = true ∨
        (n ≤ v ∧ ma = true))) →
      (evaluate_position s n v ma).1 = p) := by
  obtain ⟨cur, last, ep⟩ := s
  simp only at hp
  subst hp
  rcases hdc : detect_crossover last n v with ⟨up, down, l2⟩
  cases p <;> cases up <;> cases down <;> cases ma <;>
    simp_all [evaluate_position, hdc, check_exit_conditions, check_entry_conditions] <;>
    split_ifs <;> simp_all

theorem C2_witness :
    (evaluate_position ⟨some Position.CASH, some false, []⟩ 3 2 true).1 = Position.QQQ := by
  have h := C2_exit_before_entry ⟨some Position.CASH, some false, []⟩ 3 2 true
    Position.CASH rfl
  exact h.2.2.2.2.1 ⟨rfl, by decide⟩


/-- The remembered flag written by `_detect_crossover`. -/
lemma detect_crossover_state (last : Option Bool) (n v : ℚ) :
    (detect_crossover last n v).2.2 = some (decide (n > v)) := by
  rcases last with _ | l
  · rfl
  · cases l <;> by_cases h : n > v <;> simp [detect_crossover, h]

/-- Once the remembered flag equals the comparison outcome, a repeat call
with the same inputs classifies no crossover. -/
lemma detect_crossover_stable (n v : ℚ) :
    detect_crossover (some (decide (n > v))) n v = (false, false, some (decide (n > v))) := by
  by_cases h : n > v <;> simp [detect_crossover, h]

/-- The only strategy-state field `evaluate_position` changes is
`last_n_above_v`, which is always overwritten with `current_n > v`. -/
lemma evaluate_position_state (s : StrategyState) (n v : ℚ) (ma : Bool) :
    (evaluate_position s n v ma).2.1 =
      { s with last_n_above_v := some (decide (n > v)) } := by
  obtain ⟨cur, last, ep⟩ := s
  rcases hdc : detect_crossover last n v with ⟨up, down, l2⟩
  have hl2 : l2 = some (decide (n > v)) := by
    rw [← detect_crossover_state last n v, hdc]
  subst hl2
  rcases cur with _ | c
  · simp [evaluate_position, hdc, check_exit_conditions, check_entry_conditions]
  · cases c <;> cases up <;> cases down <;> cases ma <;>
      simp_all [evaluate_position, hdc, check_exit_conditions, check_entry_conditions] <;>
      split_ifs <;> simp_all

/-- Closed-form description of the position returned by
`evaluate_position`, by the case order of the source. -/
lemma evaluate_position_fst (cur : Option Position) (last : Option Bool)
    (ep : List (String × ℚ)) (n v : ℚ) (ma : Bool) :
    (evaluate_position ⟨cur, last, ep⟩ n v ma).1 =
      if cur = some Position.QQQ ∧ (detect_crossover last n v).2.1 = true then
        Position.CASH
      else if cur = some Position.SPY ∧
          ((detect_crossover last n v).1 = true ∨ ma = false) then Position.CASH
      else if cur = some Position.CASH ∧ (detect_crossover last n v).1 = true then
        Position.QQQ
      else if cur = some Position.CASH ∧ (n ≤ v ∧ ma = true) then Position.SPY
      else cur.getD Position.CASH := by
  rcases hdc : detect_crossover last n v with ⟨up, down, l2⟩
  rcases cur with _ | c
  · simp [evaluate_position, hdc, check_exit_conditions, check_entry_conditions]
  · cases c <;> cases up <;> cases down <;> cases ma <;>
      simp_all [evaluate_position, hdc, check_exit_conditions, check_entry_conditions] <;>
      split_ifs <;> simp_all


/-- **C4** counterexample: holding QQQ with a downward crossover, the
first run returns CASH; the second run with identical inputs and no
intervening state change returns QQQ (the call never wrote the position
back), so the two outputs differ and the claimed idempotence fails. -/
theorem C4_counterexample :
    (evaluate_position ⟨some Position.QQQ, some true, []⟩ 1 2 false).1 = Position.CASH ∧
    (evaluate_position (evaluate_position ⟨some Position.QQQ, some true, []⟩ 1 2 false).2.1
        1 2 false).1 = Position.QQQ := by
  decide

/-- **C4** amended: repeating `evaluate_position` with identical inputs,
the second run never detects a crossover; and when the first run left the
position unchanged, the second run returns the same position and emits no
signal. When the first run fired a transition the outputs can differ,
because the recommended position is not written back to
`current_position`. -/
theorem C4_amended (s : StrategyState) (n v : ℚ) (ma : Bool)
    (h : (evaluate_position s n v ma).1 = s.current_position.getD Position.CASH) :
    (detect_crossover (evaluate_position s n v ma).2.1.last_n_above_v n v).1 = false ∧
    (detect_crossover (evaluate_position s n v ma).2.1.last_n_above_v n v).2.1 = false ∧
    (evaluate_position (evaluate_position s n v ma).2.1 n v ma).1 =
      (evaluate_position s n v ma).1 ∧
    (evaluate_position (evaluate_position s n v ma).2.1 n v ma).2.2 = [] := by
  have hst := evaluate_position_state s n v ma
  rw [hst, h]
  obtain ⟨cur, last, ep⟩ := s
  simp only at h ⊢
  have hstable := detect_crossover_stable n v
  refine ⟨by rw [hstable], by rw [hstable], ?_, ?_⟩
  · rw [evaluate_position_fst, hstable]
    rcases cur with _ | c
    · simp
    · cases c <;> simp <;>
      · rw [evaluate_position_fst] at h
        by_cases hup : (detect_crossover last n v).1 = true <;>
          by_cases hdown : (detect_crossover last n v).2.1 = true <;>
          by_cases hle : n ≤ v <;> cases ma <;> simp_all
  · rcases cur with _ | c
    · simp [evaluate_position, hstable, check_exit_conditions, check_entry_conditions]
    · rw [evaluate_position_fst] at h
      cases c <;>
        by_cases hup : (detect_crossover last n v).1 = true <;>
        by_cases hdown : (detect_crossover last n v).2.1 = true <;>
        by_cases hle : n ≤ v <;> cases ma <;>
        simp_all [evaluate_position, hstable, check_exit_conditions,
          check_entry_conditions] <;>
        split_ifs <;> simp_all <;> linarith

theorem C4_witness :
    (evaluate_position (evaluate_position ⟨some Position.QQQ, some true, []⟩ 3 2 true).2.1
        3 2 true).1 = (evaluate_position ⟨some Position.QQQ, some true, []⟩ 3 2 true).1 :=
  (C4_amended ⟨some Position.QQQ, some true, []⟩ 3 2 true (by decide)).2.2.1


/-- Frame of `evaluate_position_enhanced` on the strategy state:
`current_position` untouched, `last_n_above_v` overwritten, and
`entry_prices` at most loses the key of the exited instrument. -/
lemma evaluate_position_enhanced_state (s : StrategyState) (n v : ℚ) (ma : Bool)
    (qr sr : ℚ) (qt st : String) (fs : ℚ) :
    (evaluate_position_enhanced s n v ma qr sr qt st fs).2.1.current_position
        = s.current_position ∧
    (evaluate_position_enhanced s n v ma qr sr qt st fs).2.1.last_n_above_v
        = some (decide (n > v)) ∧
    ((evaluate_position_enhanced s n v ma qr sr qt st fs).2.1.entry_prices
        = s.entry_prices ∨
     (evaluate_position_enhanced s n v ma qr sr qt st fs).2.1.entry_prices
        = erase_key "QQQ" s.entry_prices ∨
     (evaluate_position_enhanced s n v ma qr sr qt st fs).2.1.entry_prices
        = erase_key "SPY" s.entry_prices) := by
  obtain ⟨cur, last, ep⟩ := s
  rcases hdc : detect_crossover last n v with ⟨up, down, l2⟩
  have hl2 : l2 = some (decide (n > v)) := by
    rw [← detect_crossover_state last n v, hdc]
  subst hl2
  simp only [evaluate_position_enhanced, hdc]
  split_ifs <;> simp

/-- **C10**: neither evaluation path assigns `current_position`; the only
state a call modifies is `last_n_above_v` (always overwritten with the
`N > V` outcome) and, in the enhanced exit branches, `entry_prices`; the
caller `process_market_cycle` also leaves `current_position` unchanged. -/
theorem C10_frame (s : StrategyState) (row : SignalRow) (n v : ℚ) (ma : Bool)
    (qr sr : ℚ) (qt st : String) (fs : ℚ) (qp sp : ℚ) :
    (evaluate_position s n v ma).2.1.current_position = s.current_position ∧
    (evaluate_position s n v ma).2.1.last_n_above_v = some (decide (n > v)) ∧
    (evaluate_position s n v ma).2.1.entry_prices = s.entry_prices ∧
    (evaluate_position_enhanced s n v ma qr sr qt st fs).2.1.current_position
        = s.current_position ∧
    (evaluate_position_enhanced s n v ma qr sr qt st fs).2.1.last_n_above_v
        = some (decide (n > v)) ∧
    ((evaluate_position_enhanced s n v ma qr sr qt st fs).2.1.entry_prices
        = s.entry_prices ∨
     (evaluate_position_enhanced s n v ma qr sr qt st fs).2.1.entry_prices
        = erase_key "QQQ" s.entry_prices ∨
     (evaluate_position_enhanced s n v ma qr sr qt st fs).2.1.entry_prices
        = erase_key "SPY" s.entry_prices) ∧
    (process_market_cycle s row n v ma qr sr qt st fs qp sp).2.1.current_position
        = s.current_position := by
  have hb := evaluate_position_state s n v ma
  have he := evaluate_position_enhanced_state s n v ma qr sr qt st fs
  refine ⟨by rw [hb], by rw [hb], by rw [hb], he.1, he.2.1, he.2.2, ?_⟩
  simp only [process_market_cycle]
  split_ifs <;> simp [he.1]

/-- **C5**: after a full monitoring cycle the in-memory crossover flag has
been overwritten, yet the durable `signal_state` row is bit-for-bit the
row that went in — no code of the cycle persists the flag (the only write
to `signal_state` is the one-time seed in `init_db`) — and a restarted
`Strategy` begins with `last_n_above_v = None` rather than resuming the
remembered flag. -/
theorem C5_flag_not_persisted (s : StrategyState) (row : SignalRow)
    (n v : ℚ) (ma : Bool) (qr sr : ℚ) (qt st : String) (fs : ℚ) (qp sp : ℚ) :
    (process_market_cycle s row n v ma qr sr qt st fs qp sp).2.2 = row ∧
    (process_market_cycle s row n v ma qr sr qt st fs qp sp).2.1.last_n_above_v
        = some (decide (n > v)) ∧
    strategy_init.last_n_above_v = none ∧
    init_signal_row.last_n_above_v = false := by
  have he := evaluate_position_enhanced_state s n v ma qr sr qt st fs
  refine ⟨?_, ?_, rfl, rfl⟩
  · simp only [process_market_cycle]
  · simp only [process_market_cycle]
    split_ifs <;> simp [he.2.1]

/-- **C6**: with a missing (`None`) QQQ RSI and no downward crossover, the
enhanced evaluation raises `TypeError` while computing
`qqq_exit_confirmed` (`None > 80`), even though the trend is `falling`
and the claim requires the trend-break exit to CASH; with the RSI present
the very same state and inputs do exit to CASH. -/
theorem C6_missing_input_crashes :
    evaluate_position_enhanced_opt ⟨some Position.QQQ, some true, []⟩ 3 2 true
        none (some 50) (some "falling") (some "rising") (some 50) =
      Except.error "TypeError: comparison not supported with NoneType" ∧
    evaluate_position_enhanced_opt ⟨some Position.QQQ, some true, []⟩ 3 2 true
        (some 50) (some 50) (some "falling") (some "rising") (some 50) =
      Except.ok (Position.CASH, ⟨some Position.QQQ, some true, []⟩,
        [Signal.sellQQQEnh]) := by
  constructor <;> rfl


/-- **C7**: `calculate_ratio` raises exactly when lengths differ, a series
is empty, or a denominator is zero, and otherwise returns the element-wise
quotients; `calculate_average` returns the arithmetic mean of a non-empty
list and raises on an empty one. -/
theorem C7_ratio_average_contract (p1 p2 vs : List ℚ) :
    ((∃ e, calculate_ratio p1 p2 = Except.error e) ↔
      (p1.length ≠ p2.length ∨ p1 = [] ∨ p2 = [] ∨ ∃ x ∈ p2, x = 0)) ∧
    (∀ r, calculate_ratio p1 p2 = Except.ok r →
      r.length = p1.length ∧
      ∀ i (h1 : i < r.length) (h2 : i < p1.length) (h3 : i < p2.length),
        r.get ⟨i, h1⟩ = p1.get ⟨i, h2⟩ / p2.get ⟨i, h3⟩) ∧
    ((∃ e, calculate_average vs = Except.error e) ↔ vs = []) ∧
    (∀ m, calculate_average vs = Except.ok m → m * vs.length = vs.sum) := by
  refine ⟨?_, ?_, ?_, ?_⟩
  · unfold calculate_ratio
    split_ifs with h1 h2 h3 <;> simp_all [List.any_eq_true]
    tauto
  · intro r hr
    unfold calculate_ratio at hr
    split_ifs at hr with h1 h2 h3
    have h1e : p1.length = p2.length := not_ne_iff.mp h1
    have hre : List.zipWith (fun a b => a / b) p1 p2 = r := Except.ok.inj hr
    subst hre
    refine ⟨?_, ?_⟩
    · rw [List.length_zipWith, h1e, min_self]
    · intro i hi1 hi2 hi3
      simp [List.get_eq_getElem, List.getElem_zipWith]
  · unfold calculate_average
    split_ifs with h <;> simp_all
  · intro m hm
    unfold calculate_average at hm
    split_ifs at hm with h
    simp_all
    subst hm
    have hlen : (vs.length : ℚ) ≠ 0 := by
      simpa [List.length_eq_zero] using h
    field_simp

theorem C7_witness :
    ((3 : ℚ) * (([2, 4] : List ℚ)).length = (([2, 4] : List ℚ)).sum) ∧
    (∃ e, calculate_ratio [1] ([] : List ℚ) = Except.error e) := by
  constructor
  · refine (C7_ratio_average_contract [] [] [2, 4]).2.2.2 3 ?_
    have : (([2, 4] : List ℚ)) ≠ [] := by simp
    simp only [calculate_average, if_neg this]
    norm_num
  · exact (C7_ratio_average_contract [1] [] []).1.mpr (by simp)

end Marketflow